import Mathlib

/-!
Verification development for the parquet_tools schema / null-encoding core.

The definitions below are a shallow embedding of the Python sources:
  - common/typeinfo.py   (TypeInfo)
  - common/schema.py     (Schema: _get_dectype, _get_type, get_schema,
                          _revert2null, _format, normalize, ver_dataframe)
  - common/errhandlers.py (ParmError message rendering)
  - csv2pq/csv2csv.py    (Csv2Csv.read)

File reading, pandas and numpy are external collaborators of that code; where
a value produced by a collaborator flows through the verified functions (the
parsed integer of an int32 csv field, the Python rendering str(int), the
fixed-point rendering format(x, fmt)) the collaborator behaviour is modelled
here by explicit executable functions over Int / Rat and noted in the doc
comment of the model.
-/

set_option maxRecDepth 4000

/-! ## Models of the Python string and integer primitives used by the code -/

/-- Python str.lower() for the ASCII tokens appearing in schema files. -/
def pyLower (s : String) : String := String.mk (s.data.map Char.toLower)

/-- Python str.upper() for ASCII. -/
def pyUpper (s : String) : String := String.mk (s.data.map Char.toUpper)

/-- Python s[0:n], the first n characters. -/
def strTake (s : String) (n : Nat) : String := String.mk (s.data.take n)

/-- Python s[n:], the characters from position n on. -/
def strDrop (s : String) (n : Nat) : String := String.mk (s.data.drop n)

/-- Python s.find(c): index of the first occurrence of character c, -1 if absent. -/
def pyFind (s : String) (c : Char) : Int :=
  match s.data.findIdx? (· = c) with
  | some n => (n : Int)
  | none => -1

/-- Split a character list at the characters satisfying p: the list of
pieces between separators, with empty pieces kept. -/
def splitL (p : Char → Bool) : List Char → List (List Char)
  | [] => [[]]
  | c :: cs =>
    if p c then [] :: splitL p cs
    else
      match splitL p cs with
      | [] => [[c]]
      | h :: t => (c :: h) :: t

/-- Python s.split(c) for a one-character separator. -/
def pySplitChar (s : String) (c : Char) : List String :=
  (splitL (· = c) s.data).map String.mk

/-- Python s.split() with no argument: split on whitespace runs, dropping
empty pieces. -/
def pySplitWs (s : String) : List String :=
  ((splitL Char.isWhitespace s.data).map String.mk).filter (· ≠ "")

/-- Value of a list of decimal digit characters, most significant first. -/
def digitsVal (l : List Char) : Nat :=
  l.foldl (fun a c => a * 10 + (c.toNat - 48)) 0

/-- Python int(str): strip surrounding whitespace, optional sign, then a
nonempty run of decimal digits; anything else raises (here: none).
Underscore digit grouping accepted by Python is not used by any schema text
and is not modelled. -/
def pyInt? (s : String) : Option Int :=
  let t := ((s.data.dropWhile Char.isWhitespace).reverse.dropWhile
    Char.isWhitespace).reverse
  let p : Int × List Char :=
    match t with
    | '+' :: rest => (1, rest)
    | '-' :: rest => (-1, rest)
    | _ => (1, t)
  if p.2 ≠ [] ∧ p.2.all Char.isDigit then some (p.1 * digitsVal p.2) else none

/-- Decimal digit string of a natural number on explicit fuel (any fuel
above the value itself is enough; structural recursion keeps every function
here kernel-evaluable). -/
def natDigitsAux : Nat → Nat → List Char
  | 0, _ => []
  | fuel + 1, n =>
    if n < 10 then [Char.ofNat (48 + n)]
    else natDigitsAux fuel (n / 10) ++ [Char.ofNat (48 + n % 10)]

/-- Decimal digit string of a natural number, as produced by Python str(). -/
def natDigits (n : Nat) : List Char := natDigitsAux (n + 1) n

/-- Python str(int): sign followed by decimal digits. -/
def intStr (i : Int) : String :=
  (if i < 0 then "-" else "") ++ String.mk (natDigits i.natAbs)

/-! ## typeinfo.py : the type catalog -/

/-- The concrete numpy value types the catalog can resolve to. -/
inductive NpType where
  | int8 | int16 | int32 | int64 | float32 | float64 | bytes_ | bool_
  deriving DecidableEq, Repr

/-- TypeInfo.table from common/typeinfo.py: the dictionary mapping SQL type
tokens to numpy types, in source order.  Note that it contains no entry for
the token int16 (nor for tinyint or datetime). -/
def TypeInfo.table : List (String × NpType) :=
  [("int", .int32), ("short", .int16), ("long", .int64),
   ("bigint", .int64), ("smallint", .int16),
   ("int8", .int8), ("int32", .int32), ("int64", .int64),
   ("float", .float32), ("double", .float64),
   ("float32", .float32), ("float64", .float64),
   ("char", .bytes_), ("bool", .bool_)]

/-- TypeInfo.isInt from common/typeinfo.py: the tokens flagged as integral. -/
def TypeInfo.isInt : List String :=
  ["int", "short", "long", "bigint", "smallint", "int8", "int32", "int64"]

/-! ## errhandlers.py : ParmError / FatalError -/

/-- The two error classes of common/errhandlers.py.  ParmError carries the
message number and the stringified argument tokens; FatalError carries its
context tokens. -/
inductive PTError where
  | parmError (msgnum : Nat) (args : List String)
  | fatalError (ctx : List String)
  deriving DecidableEq, Repr

instance {ε α : Type} [DecidableEq ε] [DecidableEq α] : DecidableEq (Except ε α) :=
  fun a b =>
    match a, b with
    | .error e, .error f =>
      if h : e = f then .isTrue (h ▸ rfl)
      else .isFalse (fun c => h (by injection c))
    | .ok x, .ok y =>
      if h : x = y then .isTrue (h ▸ rfl)
      else .isFalse (fun c => h (by injection c))
    | .error _, .ok _ => .isFalse (fun c => Except.noConfusion c)
    | .ok _, .error _ => .isFalse (fun c => Except.noConfusion c)

/-- The message rendered by ParmError.__init__ in common/errhandlers.py for a
given message number and argument tokens (already stringified). -/
def renderParm (msgnum : Nat) (args : List String) : String :=
  (if msgnum = 1 then String.intercalate " " args
   else
    let tok := args ++ ["", "", ""]
    let t0 := tok.getD 0 ""
    let t1 := tok.getD 1 ""
    let t2 := tok.getD 2 ""
    if msgnum = 2 then t0 ++ " not specified"
    else if msgnum = 3 then "Invalid " ++ t0 ++ ", \"" ++ t1 ++ "\""
    else if msgnum = 4 then
      "Column \"" ++ t0 ++ "\" has an unsupported type \"" ++ t1 ++ "\""
    else if msgnum = 5 then
      "\"" ++ t0 ++ "\" and \"" ++ t1 ++ "\" are mutually exclusive"
    else if msgnum = 6 then t0 ++ " \"" ++ t1 ++ "\" " ++ t2
    else "Message " ++ intStr msgnum ++ " not found") ++ "."

/-! ## schema.py : decimal resolution -/

/-- Schema._get_dectype from common/schema.py.  Input is the text after the
opening parenthesis of a lowercased decimal(...) token.  Returns the generic
numpy type name ("" when the spec is invalid) together with the fixed-point
rendering format appended to Schema._colFPFmt when the scale is positive. -/
def get_dectype (dargs : String) : String × Option String :=
  let n := pyFind dargs ')'
  if n < 1 then ("", none)
  else
    let xargs := strTake dargs n.toNat
    let pspec := pySplitChar xargs ','
    match pyInt? (pspec.getD 0 "") with
    | none => ("", none)
    | some pval1 =>
      if pval1 < 0 then ("", none)
      else
        match (if pspec.length = 1 then some (0 : Int)
               else pyInt? (pspec.getD 1 "")) with
        | none => ("", none)
        | some pval2 =>
          if pval2 < 0 then ("", none)
          else if pval2 = 0 then
            (if pval1 < 3 then "int8"
             else if pval1 < 5 then "int16"
             else if pval1 < 10 then "int32"
             else "int64", none)
          else
            (if pval1 < 7 then "float32" else "float64",
             some ("." ++ intStr pval2 ++ "f"))

/-! ## schema.py : the Schema state and _get_type / get_schema -/

/-- The per-run content of the Schema class variables of common/schema.py.
The source keeps these as process-wide class state reset per invocation; here
one record holds them and every method threads it explicitly. -/
structure SchemaState where
  colNames : List String := []
  colNVChk : List Nat := []
  colTypes : List (String × NpType) := []
  colOrigs : Nat := 0
  cNameMaw : Nat := 0
  cNameMax : Nat := 0
  colFPFmt : List (String × String) := []
  colFP32 : List String := []
  colFP64 : List String := []
  colNotNull : List String := []
  colSpecs : List (String × String × String) := []
  f32fmt : Option String := none
  f64fmt : Option String := none
  deriving DecidableEq, Repr

/-- Python dict assignment d[k] = v on an insertion-ordered dictionary
modelled as an association list: replace in place, else append. -/
def dictUpd {β : Type} (d : List (String × β)) (k : String) (v : β) :
    List (String × β) :=
  if d.any (fun p => p.1 = k) then d.map (fun p => if p.1 = k then (k, v) else p)
  else d ++ [(k, v)]

/-- Python str(np.dtype(t)) for the catalog types, used in _colSpecs rows. -/
def npDtypeStr : NpType → String
  | .int8 => "int8" | .int16 => "int16" | .int32 => "int32" | .int64 => "int64"
  | .float32 => "float32" | .float64 => "float64"
  | .bytes_ => "|S0" | .bool_ => "bool"

/-- Schema._add_col from common/schema.py: record the column name and the
length of the longest name seen. -/
def add_col (cname : String) (st : SchemaState) : SchemaState :=
  { st with colNames := st.colNames ++ [cname],
            cNameMax := max st.cNameMax cname.length }

/-- Python substring containment pat in l, on character lists. -/
def hasInfixL (pat : List Char) : List Char → Bool
  | [] => pat.isPrefixOf []
  | a :: rest => pat.isPrefixOf (a :: rest) || hasInfixL pat rest

/-- Schema._can_be_null from common/schema.py: a column may be null unless
the rest of its schema line contains the phrase NOT NULL (case-insensitive,
checked on the space-joined uppercased tokens). -/
def can_be_null (cspec : List String) : Bool :=
  !(hasInfixL ("NOT NULL").data (pyUpper (String.intercalate " " cspec)).data)

/-- Schema._get_type from common/schema.py.  Resolves one column's declared
SQL type, records it in the state (colTypes, colSpecs, float-column lists,
fixed-point formats) and, when the column may be null and the resolved token
is integral, appends the companion [position, name_ISNULL] entry to the
colnulls accumulator and registers the companion bool type.  A token that is
not in TypeInfo.table raises ParmError(4, cname, ctype). -/
def get_type (cname ctype : String) (cnull : Bool) (st : SchemaState)
    (colnulls : List (Nat × String)) :
    Except PTError (SchemaState × List (Nat × String)) :=
  let xtype0 := pyLower ctype
  let step1 : Except PTError (String × SchemaState) :=
    if strTake xtype0 4 = "char" ∨ strTake xtype0 7 = "varchar" then .ok ("char", st)
    else if strTake xtype0 8 = "decimal(" then
      match get_dectype (strDrop xtype0 8) with
      | (xt, some f) => .ok (xt, { st with colFPFmt := st.colFPFmt ++ [(cname, f)] })
      | (xt, none) => .ok (xt, st)
    else
      match List.lookup xtype0 TypeInfo.table with
      | some t =>
        if t = .float32 then .ok (xtype0, { st with colFP32 := st.colFP32 ++ [cname] })
        else if t = .float64 then .ok (xtype0, { st with colFP64 := st.colFP64 ++ [cname] })
        else .ok (xtype0, st)
      | none => .error (.parmError 4 [cname, ctype])
  match step1 with
  | .error e => .error e
  | .ok (xtype, st1) =>
    match List.lookup xtype TypeInfo.table with
    | none => .error (.parmError 4 [cname, ctype])
    | some nptype =>
      let st2 := { st1 with
        colTypes := dictUpd st1.colTypes cname nptype,
        colSpecs := st1.colSpecs ++ [(cname, ctype, npDtypeStr nptype)] }
      if cnull && TypeInfo.isInt.contains xtype then
        .ok ({ st2 with colTypes := dictUpd st2.colTypes (cname ++ "_ISNULL") .bool_ },
             colnulls ++ [(st.colNames.length - 1, cname ++ "_ISNULL")])
      else .ok (st2, colnulls)

/-- One iteration of the line loop of Schema.get_schema: tokenize the line,
register the column name, then either resolve its type (second token present,
non-auto mode) or record an auto column. -/
def schLine (do_auto : Bool) (acc : SchemaState × List (Nat × String))
    (line : String) : Except PTError (SchemaState × List (Nat × String)) :=
  let toks := pySplitWs line
  match toks with
  | [] => .ok acc
  | t0 :: _ =>
    let st1 := add_col t0 acc.1
    if !do_auto && toks.length > 1 then
      let nullok := can_be_null (toks.drop 2)
      let st2 := if nullok then st1
                 else { st1 with colNotNull := st1.colNotNull ++ [t0] }
      get_type t0 (toks.getD 1 "") nullok st2 acc.2
    else if t0 ≠ "" then
      .ok ({ st1 with colSpecs := st1.colSpecs ++ [(t0, "auto", "auto")] }, acc.2)
    else .ok (st1, acc.2)

/-- The line loop of Schema.get_schema over the schema file records. -/
def schLines (do_auto : Bool) (recs : List String)
    (acc : SchemaState × List (Nat × String)) :
    Except PTError (SchemaState × List (Nat × String)) :=
  match recs with
  | [] => .ok acc
  | line :: rest =>
    match schLine do_auto acc line with
    | .error e => .error e
    | .ok acc2 => schLines do_auto rest acc2

/-- Schema.get_schema from common/schema.py, applied to the records of the
schema file (file access is the collaborator; a missing file raises before
this logic runs).  After the line loop it records the original column count
and appends each companion column: its originating position to colNVChk and
its name to the column list. -/
def get_schema (recs : List String) (do_auto : Bool) :
    Except PTError SchemaState :=
  match schLines do_auto recs ({}, []) with
  | .error e => .error e
  | .ok (st, colnulls) =>
    let st1 := { st with colOrigs := st.colNames.length,
                         cNameMaw := st.cNameMax }
    .ok (colnulls.foldl
      (fun s x => add_col x.2 { s with colNVChk := s.colNVChk ++ [x.1] }) st1)

/-! ## csv2pq/csv2csv.py : text-row null substitution -/

/-- The Csv2Csv class configuration set by Csv2Csv.setup, with the class
defaults of csv2pq/csv2csv.py. -/
structure Csv2CsvCfg where
  cmtC : String := "#"
  nanV : String := "0"
  nCol : Nat := 0
  nilC : List Nat := []
  nilV : String := "\\N"
  sepC : String := ","
  deriving DecidableEq, Repr

/-- The null-substitution loop of Csv2Csv.read: for each position of the
null-check list, append a true flag and replace the field with the null
substitute when the field equals the null marker, else append a false flag.
The source mutates the row list in place; appends land after the original
fields, replacements land at positions inside them. -/
def nilAugment (nilV nanV : String) : List String → List Nat → List String
  | row, [] => row
  | row, i :: is =>
    if row.getD i "" = nilV then nilAugment nilV nanV ((row.set i nanV) ++ ["true"]) is
    else nilAugment nilV nanV (row ++ ["false"]) is

/-- The row transformation of Csv2Csv.read applied to one parsed csv row
(the csv.reader collaborator already produced the field list).  A field count
different from the schema's original column count raises ParmError(7, ...)
with the file name, row counter and the two counts as argument tokens; note
the source initializes self.nRow to 0 and never increments it. -/
def csvRead (cfg : Csv2CsvCfg) (fname : String) (nRow : Nat)
    (row : List String) : Except PTError (List String) :=
  if cfg.nCol > 0 ∧ row.length ≠ cfg.nCol then
    .error (.parmError 7 ["In file \"" ++ fname ++ "\" record", intStr nRow,
      "has", intStr row.length, "columns but schema defines only",
      intStr cfg.nCol, "columns"])
  else .ok (nilAugment cfg.nilV cfg.nanV row cfg.nilC)

/-- Csv2Csv.read at record level: end of input (StopIteration) yields the
empty string, otherwise the augmented fields joined by the separator with a
trailing newline. -/
def csvReadRecord (cfg : Csv2CsvCfg) (fname : String) (nRow : Nat)
    (row? : Option (List String)) : Except PTError String :=
  match row? with
  | none => .ok ""
  | some row =>
    match csvRead cfg fname nRow row with
    | .error e => .error e
    | .ok r => .ok (String.intercalate cfg.sepC r ++ "\n")

/-! ## schema.py : fixed point rendering (_format) -/

/-- The exact value of a Python float, carried as an unnormalized fraction
num / den with den positive.  Every IEEE float is such a rational; keeping
the fraction unnormalized keeps all arithmetic kernel-evaluable. -/
structure PyFloat where
  num : Int
  den : Nat := 1
  deriving DecidableEq, Repr

/-- Round num * scale / den to an integer, ties to even: the rounding
Python's fixed-point float formatting performs on the exact value. -/
def scaledRoundHalfEven (num : Int) (den : Nat) (scale : Nat) : Int :=
  let t : Int := num * scale
  let f : Int := t.fdiv den
  let r : Int := t - f * den
  if 2 * r < den then f
  else if (den : Int) < 2 * r then f + 1
  else if f % 2 = 0 then f else f + 1

/-- Left-pad a digit list with zeros to the given width. -/
def padLeftZeros (l : List Char) (n : Nat) : List Char :=
  List.replicate (n - l.length) '0' ++ l

/-- Python format(x, ".sf") on a nonnegative scale s: the value rounded to s
decimal places, with exactly s digits after the point (no point when s = 0).
The float argument is modelled as the exact rational it denotes. -/
def fixedRenderL (q : PyFloat) (s : Nat) : List Char :=
  let m := scaledRoundHalfEven q.num q.den (10 ^ s)
  if s = 0 then (intStr m).data
  else
    let a := m.natAbs
    (if m < 0 then ['-'] else []) ++ natDigits (a / 10 ^ s)
      ++ '.' :: padLeftZeros (natDigits (a % 10 ^ s)) s

/-- Parse a Python fixed-point format string ".sf" into its scale; other
format specs (unused by the fixed-point rendering path) give none. -/
def parseFmt (fmt : String) : Option Nat :=
  match fmt.data with
  | '.' :: rest =>
    if rest.getLast? = some 'f' then
      let ds := rest.dropLast
      if ds ≠ [] ∧ ds.all Char.isDigit then some (digitsVal ds) else none
    else none
  | _ => none

/-- Python s.rstrip(c) on a character list. -/
def rstripL (c : Char) (l : List Char) : List Char :=
  (l.reverse.dropWhile (· = c)).reverse

/-- The trimming done by Schema._format: strip trailing zero digits, and when
that leaves a trailing decimal point put one zero digit back. -/
def trimZerosL (l : List Char) : List Char :=
  let r := rstripL '0' l
  if r.getLast? = some '.' then r ++ ['0'] else r

/-- Schema._format from common/schema.py, with the format that the source
keeps in Schema._colFmtfp passed explicitly: zero renders as "0.0"; any other
value is rendered with format(x, fmt) — modelled for the ".sf" specs the
fixed-point path registers — then trailing zeros are stripped with one digit
kept after the point. -/
def formatx (fmtfp : String) (x : PyFloat) : String :=
  if x.num = 0 then "0.0"
  else
    match parseFmt fmtfp with
    | some s => String.mk (trimZerosL (fixedRenderL x s))
    | none => ""

/-! ## schema.py : dataframes, _revert2null and normalize -/

/-- A cell of the pandas dataframe collaborator: the value kinds the verified
code distinguishes.  Floats are carried as exact rationals. -/
inductive Cell where
  | intv (n : Int)
  | boolv (b : Bool)
  | strv (s : String)
  | floatv (q : PyFloat)
  deriving DecidableEq, Repr

/-- Python str() on a cell, as applied by _revert2null via df.apply(str).
That code path only runs on integral null-check columns, so only intv cells
reach it; str of a float (repr-style shortest rendering) is not modelled and
bool/float cells are given structural renderings. -/
def cellStr : Cell → String
  | .intv n => intStr n
  | .boolv b => if b then "True" else "False"
  | .strv s => s
  | .floatv q => intStr q.num ++ "/" ++ intStr (q.den : Int)

/-- A dataframe: insertion-ordered columns of equal length. -/
def DF : Type := List (String × List Cell)

/-- Column access df[name]. -/
def dfGet (df : DF) (k : String) : Option (List Cell) :=
  List.lookup k df

/-- Column assignment df[name] = col. -/
def dfSet (df : DF) (k : String) (col : List Cell) : DF :=
  dictUpd df k col

/-- The loop body of Schema._revert2null over the null-check positions: the
column is converted to strings (a missing column makes the apply(str) lookup
raise, wrapped as FatalError), then rows whose companion _ISNULL column is
true are overwritten with the null marker.  A missing companion column
raises an uncaught KeyError in the source; it is surfaced as an error here. -/
def revertLoop (st : SchemaState) (nilval : String) :
    List Nat → DF → Except PTError DF
  | [], df => .ok df
  | cnum :: rest, df =>
    let cname := st.colNames.getD cnum ""
    match dfGet df cname with
    | none => .error (.fatalError
        ["Unable to convert integer column", cname, "to string"])
    | some col =>
      let col1 := col.map (fun c => Cell.strv (cellStr c))
      match dfGet df (cname ++ "_ISNULL") with
      | none => .error (.fatalError ["KeyError", cname ++ "_ISNULL"])
      | some flags =>
        let col2 := (col1.zip flags).map
          (fun p => if p.2 = Cell.boolv true then Cell.strv nilval else p.1)
        revertLoop st nilval rest (dfSet df cname col2)

/-- Schema._revert2null from common/schema.py: nothing to do when the
null-check list is empty. -/
def revert2null (st : SchemaState) (df : DF) (nilval : String) :
    Except PTError DF :=
  if st.colNVChk = [] then .ok df
  else revertLoop st nilval st.colNVChk df

/-- Apply Schema._format to every float cell of a column, as the source's
df[cname].map(Schema._format, na_action=ignore) does (NaN cells are skipped
by pandas and are not modelled; non-float cells do not occur on this path). -/
def mapFmtCol (fmtfp : String) (col : List Cell) : List Cell :=
  col.map (fun c => match c with
    | .floatv q => .strv (formatx fmtfp q)
    | c => c)

/-- The _colFPFmt loop of Schema.normalize: each registered fixed-point
column is re-rendered with its format (a missing column would raise an
uncaught KeyError in the source). -/
def fmtFPLoop : List (String × String) → DF → Except PTError DF
  | [], df => .ok df
  | (cname, fmtfp) :: rest, df =>
    match dfGet df cname with
    | none => .error (.fatalError ["KeyError", cname])
    | some col => fmtFPLoop rest (dfSet df cname (mapFmtCol fmtfp col))

/-- The global float-format loops of Schema.normalize over the float32 or
float64 column lists. -/
def fmtColsLoop (fmtfp : String) : List String → DF → Except PTError DF
  | [], df => .ok df
  | cname :: rest, df =>
    match dfGet df cname with
    | none => .error (.fatalError ["KeyError", cname])
    | some col => fmtColsLoop fmtfp rest (dfSet df cname (mapFmtCol fmtfp col))

/-- Schema.normalize from common/schema.py: revert nulls when any integral
column may hold them, then re-render registered fixed-point columns, then
apply the run-wide float32 / float64 formats when configured. -/
def Schema.normalize (st : SchemaState) (df : DF) (nilval : String) :
    Except PTError DF :=
  match (if st.colNVChk ≠ [] then revert2null st df nilval else .ok df) with
  | .error e => .error e
  | .ok df1 =>
    match fmtFPLoop st.colFPFmt df1 with
    | .error e => .error e
    | .ok df2 =>
      match (match st.f32fmt with
             | some f => if st.colFP32 ≠ [] then fmtColsLoop f st.colFP32 df2
                         else .ok df2
             | none => .ok df2) with
      | .error e => .error e
      | .ok df3 =>
        match st.f64fmt with
        | some f => if st.colFP64 ≠ [] then fmtColsLoop f st.colFP64 df3
                    else .ok df3
        | none => .ok df3

/-! ## schema.py : ver_dataframe -/

/-- An observed pandas column dtype: either the generic byte-string 'object'
dtype or a concrete numpy dtype. -/
inductive ObsType where
  | object
  | np (t : NpType)
  deriving DecidableEq, Repr

/-- The dtype actually compared by ver_dataframe: an observed 'object' dtype
is first replaced by np.bytes_. -/
def obsAdjust : ObsType → NpType
  | .object => .bytes_
  | .np t => t

/-- The numpy class name printed for a schema type (the exact Python str() of
a numpy class or dtype object is peripheral; the message identifies the
column and both types as the source one does). -/
def npClsStr (t : NpType) : String := "numpy." ++ npDtypeStr t

/-- The ErrInfo.say message for a type mismatch in ver_dataframe. -/
def typeMsg (cname : String) (ptype stype : NpType) : String :=
  "column \x27" ++ cname ++ "\x27 has wrong datatype; parquet is "
    ++ npClsStr ptype ++ " while schema is " ++ npClsStr stype ++ "."

/-- The ErrInfo.say message for a data column absent from the schema. -/
def missingMsg (cname : String) : String :=
  "parquet file contains non-schema column \x27" ++ cname ++ "\x27."

/-- The ErrInfo.say message for the final column-count comparison. -/
def countMsg (nschema ncols : Nat) : String :=
  "Derived schema with " ++ intStr nschema
    ++ " cols does not match the data with " ++ intStr ncols ++ " cols."

/-- The column loop of Schema.ver_dataframe followed by the final count
check: walks the dataframe columns left to right accumulating the printed
messages and the running flag, returning early with the empty list when blab
is false and a mismatch is found.  Returns (messages printed, result list). -/
def verGo (st : SchemaState) (blab : Bool) :
    List (String × ObsType) → Nat → List String → Bool →
    (List String × List String)
  | [], ncols, msgs, isaok =>
    if ncols ≠ st.colTypes.length then
      (msgs ++ [countMsg st.colTypes.length ncols], [])
    else
      (msgs, if isaok then st.colNames.take st.colOrigs else [])
  | (cname, otype) :: rest, ncols, msgs, isaok =>
    match List.lookup cname st.colTypes with
    | some stype =>
      if stype ≠ obsAdjust otype then
        let msgs1 := msgs ++ [typeMsg cname (obsAdjust otype) stype]
        if blab then verGo st blab rest (ncols + 1) msgs1 false
        else (msgs1, [])
      else verGo st blab rest (ncols + 1) msgs isaok
    | none =>
      let msgs1 := msgs ++ [missingMsg cname]
      if blab then verGo st blab rest (ncols + 1) msgs1 false
      else (msgs1, [])

/-- Schema.ver_dataframe from common/schema.py applied to the observed
(name, dtype) columns of the dataframe.  The source prints its messages to
stderr and returns only the column list; here the pair (messages, result) is
returned so the reporting behaviour is visible. -/
def ver_dataframe (st : SchemaState) (df : List (String × ObsType))
    (blab : Bool) : List String × List String :=
  verGo st blab df 0 [] true

/-- Whether one observed dataframe column fails verification against the
schema: absent from colTypes, or with a type different from the schema's
(after the object-to-bytes adjustment). -/
def colMismatch (st : SchemaState) (p : String × ObsType) : Bool :=
  match List.lookup p.1 st.colTypes with
  | some stype => stype ≠ obsAdjust p.2
  | none => true

/-- The message ver_dataframe prints for a mismatching column. -/
def mismatchMsg (st : SchemaState) (p : String × ObsType) : String :=
  match List.lookup p.1 st.colTypes with
  | some stype => typeMsg p.1 (obsAdjust p.2) stype
  | none => missingMsg p.1

/-! ## The text to columnar and back round trip for one nullable int column -/

/-- The end-to-end round trip of one text field through a schema with a
single nullable integral column: Csv2Csv.read augments the one-field row,
the pandas collaborator parses the augmented fields (int(str) for the data
column, true/false for the companion bool column — modelled by pyInt? and
comparison with "true"), Schema.normalize reverts nulls, and the csv writer
emits the resulting string cell.  Returns the output text and the companion
flag, or none when a step outside the verified code fails. -/
def parquetRoundTrip (st : SchemaState) (nilV nanV : String) (s : String) :
    Option (String × Bool) :=
  match csvRead { nanV := nanV, nCol := st.colOrigs, nilC := st.colNVChk,
                  nilV := nilV } "in.csv" 0 [s] with
  | .error _ => none
  | .ok fields =>
    let cn := st.colNames.getD 0 ""
    let flag := fields.getD 1 "" = "true"
    match pyInt? (fields.getD 0 "") with
    | none => none
    | some n =>
      let df : DF := [(cn, [Cell.intv n]), (cn ++ "_ISNULL", [Cell.boolv flag])]
      match Schema.normalize st df nilV with
      | .error _ => none
      | .ok df2 =>
        match dfGet df2 cn with
        | some [Cell.strv t] => some (t, flag)
        | _ => none

/-- The schema state produced by parsing the one-line schema file of the
round-trip scenario: a single nullable int32 column named c. -/
def stRT : SchemaState :=
  match get_schema ["c int"] false with
  | .ok st => st
  | .error _ => {}

/-! ## Spec-side reference definitions (used to state refinement claims) -/

/-- The token Schema._get_type actually looks up in TypeInfo.table after the
character / decimal rewriting of the declared type. -/
def resolveToken (ctype : String) : String :=
  let x := pyLower ctype
  if strTake x 4 = "char" ∨ strTake x 7 = "varchar" then "char"
  else if strTake x 8 = "decimal(" then (get_dectype (strDrop x 8)).1
  else x

/-- The declared columns of a schema file: the token lists of its nonblank
lines, in order. -/
def declaredCols : List String → List (List String)
  | [] => []
  | line :: rest =>
    let toks := pySplitWs line
    if toks = [] then declaredCols rest else toks :: declaredCols rest

/-- The names of the declared (original) columns of a schema file. -/
def origColNames (recs : List String) : List String :=
  (declaredCols recs).map (fun t => t.headD "")

/-- Whether a declared column receives a synthetic null-flag companion: it
has a type token, may be null, and its resolved token is integral. -/
def colMakesNull (toks : List String) : Bool :=
  decide (toks.length > 1) && can_be_null (toks.drop 2)
    && TypeInfo.isInt.contains (resolveToken (toks.getD 1 ""))

/-- The (position, companion name) pairs the schema pass should produce for
the declared columns, counting positions from base. -/
def nullCompanionsAux (base : Nat) : List (List String) → List (Nat × String)
  | [] => []
  | toks :: rest =>
    (if colMakesNull toks then [(base, toks.headD "" ++ "_ISNULL")] else [])
      ++ nullCompanionsAux (base + 1) rest

/-- The (position, companion name) pairs for a schema file. -/
def nullCompanions (recs : List String) : List (Nat × String) :=
  nullCompanionsAux 0 (declaredCols recs)

/-! ## Claims C2 and C4: concrete divergence exhibits -/

/-- C2.  Decimal-type resolution as a function of precision and scale.
Schema._get_dectype does map p to int8 / int16 / int32 / int64 by the
documented precision windows and registers the ".sf" format for positive
scales, but for p = 3 and p = 4 the returned token "int16" has no entry in
TypeInfo.table, so Schema._get_type raises ParmError(4) for decimal(3) and
decimal(4) instead of resolving the column to int16: the code contradicts
_get_dectype's own documented resolution table.  The neighbouring windows
resolve as claimed. -/
theorem decimal_resolution_int16_gap :
    get_dectype "0)" = ("int8", none) ∧
    get_dectype "2)" = ("int8", none) ∧
    get_dectype "3)" = ("int16", none) ∧
    get_dectype "4)" = ("int16", none) ∧
    get_dectype "5)" = ("int32", none) ∧
    get_dectype "9)" = ("int32", none) ∧
    get_dectype "10)" = ("int64", none) ∧
    get_dectype "18)" = ("int64", none) ∧
    get_dectype "6,2)" = ("float32", some ".2f") ∧
    get_dectype "7,3)" = ("float64", some ".3f") ∧
    List.lookup "int16" TypeInfo.table = none ∧
    get_type "amt" "decimal(2)" true {} []
      = Except.ok ({ colNames := [], colTypes := [("amt", .int8), ("amt_ISNULL", .bool_)],
                     colSpecs := [("amt", "decimal(2)", "int8")] }, [(0, "amt_ISNULL")]) ∧
    get_type "amt" "decimal(3)" true {} []
      = Except.error (.parmError 4 ["amt", "decimal(3)"]) ∧
    get_type "amt" "decimal(4)" true {} []
      = Except.error (.parmError 4 ["amt", "decimal(4)"]) := by
  decide

/-- C4.  A row whose field count differs from the schema's original column
count makes Csv2Csv.read raise ParmError (it is never padded or truncated),
and the call site passes the file name, the row counter and both column
counts as arguments — but ParmError.__init__ defines no message format 7, so
the rendered message is the literal "Message 7 not found." and carries
neither the row number nor the counts (the row counter self.nRow is moreover
never incremented past 0 by read). -/
theorem field_count_mismatch_message_lost :
    csvRead { nCol := 2 } "in.csv" 0 ["a", "b", "c"]
      = Except.error (.parmError 7
          ["In file \"in.csv\" record", "0", "has", "3",
           "columns but schema defines only", "2", "columns"]) ∧
    renderParm 7
        ["In file \"in.csv\" record", "0", "has", "3",
         "columns but schema defines only", "2", "columns"]
      = "Message 7 not found." := by
  decide

/-! ## Claim C5: the resolvable type vocabulary -/

/-- The type tokens (lowercased) that Schema._get_type resolves without
error: the keys of TypeInfo.table plus the varchar spelling of the character
family.  The spec's vocabulary additionally lists int16, tinyint and
datetime, which have no TypeInfo.table entry. -/
def okTokens : List String :=
  ["int", "short", "long", "bigint", "smallint", "int8", "int32", "int64",
   "float", "double", "float32", "float64", "char", "varchar", "bool"]

/-- C5 counterexample.  The tokens int16, tinyint and datetime belong to the
claimed vocabulary, yet each one makes Schema._get_type raise ParmError(4)
(the schema error) instead of resolving, because TypeInfo.table has no entry
for them. -/
theorem vocabulary_tokens_that_fail :
    get_type "c" "int16" true {} []
      = Except.error (.parmError 4 ["c", "int16"]) ∧
    get_type "c" "tinyint" true {} []
      = Except.error (.parmError 4 ["c", "tinyint"]) ∧
    get_type "c" "datetime" true {} []
      = Except.error (.parmError 4 ["c", "datetime"]) := by
  decide

/-- C5 (amended).  Every token of the vocabulary actually supported by the
catalog — int8, int32, int64, short, int, long, bigint, smallint, float32,
float64, float, double, char, varchar, bool, but not int16, tinyint or
datetime — resolves case-insensitively (any ctype whose lowercasing is such
a token) to a concrete columnar type without error; a token that lowercases
to none of them (and is not a char / varchar / decimal( prefix form) raises
the schema error ParmError(4) naming the offending column and the type
string as written. -/
theorem type_vocabulary_resolution :
    (∀ ctype cname cnull st cn, pyLower ctype ∈ okTokens →
      ∃ r, get_type cname ctype cnull st cn = Except.ok r) ∧
    (∀ ctype cname cnull st cn,
      strTake (pyLower ctype) 4 ≠ "char" →
      strTake (pyLower ctype) 7 ≠ "varchar" →
      strTake (pyLower ctype) 8 ≠ "decimal(" →
      List.lookup (pyLower ctype) TypeInfo.table = none →
      get_type cname ctype cnull st cn = Except.error (.parmError 4 [cname, ctype]) ∧
      renderParm 4 [cname, ctype]
        = "Column \"" ++ cname ++ "\" has an unsupported type \"" ++ ctype ++ "\"" ++ ".") := by
  constructor
  · intro ctype cname cnull st cn h
    simp only [okTokens, List.mem_cons, List.mem_singleton, List.not_mem_nil,
      or_false] at h
    rcases h with h|h|h|h|h|h|h|h|h|h|h|h|h|h|h <;>
      (unfold get_type; rw [h]; cases cnull <;> exact ⟨_, rfl⟩)
  · intro ctype cname cnull st cn h1 h2 h3 h4
    have hc : ¬(strTake (pyLower ctype) 4 = "char"
        ∨ strTake (pyLower ctype) 7 = "varchar") := by
      rintro (hc | hc)
      exacts [h1 hc, h2 hc]
    refine ⟨?_, rfl⟩
    simp only [get_type, if_neg hc, if_neg h3, h4]

/-- C5 witness: the amended theorem applied to the cased token BIGINT (which
resolves) and to the unknown token datetime (which errors). -/
theorem type_vocabulary_resolution_witness :
    (∃ r, get_type "c" "BIGINT" true {} [] = Except.ok r) ∧
    get_type "c" "datetime" false {} []
      = Except.error (.parmError 4 ["c", "datetime"]) :=
  ⟨type_vocabulary_resolution.1 "BIGINT" "c" true {} [] (by decide),
   (type_vocabulary_resolution.2 "datetime" "c" false {} []
      (by decide) (by decide) (by decide) (by decide)).1⟩

/-! ## Claim C9: malformed decimal specs -/

/-- C9.  Whenever the decimal branch of Schema._get_type is taken and
Schema._get_dectype leaves the spec unresolved (returns the empty type
name), _get_type raises ParmError(4) naming the column and the literal type
string as written — the unresolved result never escapes as a lookup or
parsing exception.  The hypotheses are exactly the branch conditions of the
source. -/
theorem malformed_decimal_yields_schema_error :
    ∀ ctype cname cnull st cn,
      strTake (pyLower ctype) 4 ≠ "char" →
      strTake (pyLower ctype) 7 ≠ "varchar" →
      strTake (pyLower ctype) 8 = "decimal(" →
      (get_dectype (strDrop (pyLower ctype) 8)).1 = "" →
      get_type cname ctype cnull st cn = Except.error (.parmError 4 [cname, ctype]) ∧
      renderParm 4 [cname, ctype]
        = "Column \"" ++ cname ++ "\" has an unsupported type \"" ++ ctype ++ "\"" ++ "." := by
  intro ctype cname cnull st cn h1 h2 h3 h4
  have hc : ¬(strTake (pyLower ctype) 4 = "char"
      ∨ strTake (pyLower ctype) 7 = "varchar") := by
    rintro (hc | hc)
    exacts [h1 hc, h2 hc]
  refine ⟨?_, rfl⟩
  rcases hg : get_dectype (strDrop (pyLower ctype) 8) with ⟨xt, fo⟩
  rw [hg] at h4
  simp only at h4
  subst h4
  simp only [get_type, if_neg hc, if_pos h3, hg]
  cases fo <;> rfl

/-- C9 witness: the theorem applied to the malformed specs decimal(abc),
decimal(5 (missing close paren) and decimal(-1,2), each of which
Schema._get_dectype leaves unresolved. -/
theorem malformed_decimal_witness :
    (get_dectype "abc)").1 = "" ∧
    (get_dectype "5").1 = "" ∧
    (get_dectype "-1,2)").1 = "" ∧
    (get_dectype "5,-1)").1 = "" ∧
    get_type "c" "decimal(abc)" true {} []
      = Except.error (.parmError 4 ["c", "decimal(abc)"]) ∧
    get_type "c" "decimal(5" true {} []
      = Except.error (.parmError 4 ["c", "decimal(5"]) ∧
    get_type "c" "decimal(-1,2)" true {} []
      = Except.error (.parmError 4 ["c", "decimal(-1,2)"]) :=
  ⟨by decide, by decide, by decide, by decide,
   (malformed_decimal_yields_schema_error "decimal(abc)" "c" true {} []
      (by decide) (by decide) (by decide) (by decide)).1,
   (malformed_decimal_yields_schema_error "decimal(5" "c" true {} []
      (by decide) (by decide) (by decide) (by decide)).1,
   (malformed_decimal_yields_schema_error "decimal(-1,2)" "c" true {} []
      (by decide) (by decide) (by decide) (by decide)).1⟩

/-! ## Claim C1: the null-encoding round trip -/

lemma stRT_fields : stRT =
    { colNames := ["c", "c_ISNULL"], colNVChk := [0],
      colTypes := [("c", .int32), ("c_ISNULL", .bool_)], colOrigs := 1,
      cNameMaw := 1, cNameMax := 8, colSpecs := [("c", "int", "int32")] } := by
  decide

lemma csvRead_single (s : String) :
    csvRead { nanV := "0", nCol := 1, nilC := [0], nilV := "\\N" } "in.csv" 0 [s]
      = Except.ok (if s = "\\N" then ["0", "true"] else [s, "false"]) := by
  by_cases h : s = "\\N" <;> simp [csvRead, nilAugment, h]

lemma normalize_stRT (n : Int) (flag : Bool) (nilv : String) :
    Schema.normalize stRT [("c", [Cell.intv n]), ("c_ISNULL", [Cell.boolv flag])] nilv
      = Except.ok [("c", [if flag then Cell.strv nilv else Cell.strv (intStr n)]),
                   ("c_ISNULL", [Cell.boolv flag])] := by
  rw [stRT_fields]
  cases flag <;> rfl

/-- C1 counterexample.  A non-null field does not always round-trip with its
text unchanged: the valid int32 field text 007 is encoded verbatim by
Csv2Csv.read (flag false), but the columnar collaborator parses it to the
integer 7 and Schema._revert2null's str() conversion renders it back as "7",
so the round trip yields "7", not "007". -/
theorem roundtrip_text_changed_counterexample :
    parquetRoundTrip stRT "\\N" "0" "007" = some ("7", false) ∧ "7" ≠ "007" := by
  decide

/-- C1 (amended).  For the one-column nullable int32 schema, a field equal
to the null marker is replaced by the null substitute with a true flag and
the round trip reproduces the null marker exactly with flag true; a field
different from the null marker keeps its text on the encoding side and gets
flag false, and the round trip returns the canonical decimal rendering of
its parsed value — hence the exact original text whenever that text is
canonical (no leading zeros, no plus sign, no surrounding whitespace). -/
theorem roundtrip_null_encoding :
    (∀ s : String, s = "\\N" →
      parquetRoundTrip stRT "\\N" "0" s = some ("\\N", true)) ∧
    (∀ (s : String) (n : Int), s ≠ "\\N" → pyInt? s = some n →
      parquetRoundTrip stRT "\\N" "0" s = some (intStr n, false)) ∧
    (∀ (s : String) (n : Int), s ≠ "\\N" → pyInt? s = some n → intStr n = s →
      parquetRoundTrip stRT "\\N" "0" s = some (s, false)) := by
  have key : ∀ (s : String) (n : Int), s ≠ "\\N" → pyInt? s = some n →
      parquetRoundTrip stRT "\\N" "0" s = some (intStr n, false) := by
    intro s n hne hp
    unfold parquetRoundTrip
    rw [show ({ nanV := "0", nCol := stRT.colOrigs, nilC := stRT.colNVChk,
                nilV := "\\N" } : Csv2CsvCfg)
          = { nanV := "0", nCol := 1, nilC := [0], nilV := "\\N" } from by
        rw [stRT_fields]]
    rw [csvRead_single, if_neg hne]
    simp only [List.getD_cons_zero, List.getD_cons_succ]
    rw [hp]
    rw [show stRT.colNames.getD 0 "" = "c" from by rw [stRT_fields]; rfl]
    simp [normalize_stRT, dfGet]
  refine ⟨?_, key, ?_⟩
  · intro s h
    subst h
    decide
  · intro s n hne hp hcanon
    rw [key s n hne hp, hcanon]

/-- C1 witness: the round trip at the null marker itself and at the
canonical field text 42. -/
theorem roundtrip_null_encoding_witness :
    parquetRoundTrip stRT "\\N" "0" "\\N" = some ("\\N", true) ∧
    parquetRoundTrip stRT "\\N" "0" "42" = some ("42", false) :=
  ⟨roundtrip_null_encoding.1 "\\N" rfl,
   roundtrip_null_encoding.2.2 "42" 42 (by decide) (by decide) (by decide)⟩

/-! ## Claim C3: the null-substitution contract of Csv2Csv.read -/

lemma nilAugment_length (nilV nanV : String) :
    ∀ (is : List Nat) (row : List String),
      (nilAugment nilV nanV row is).length = row.length + is.length := by
  intro is
  induction is with
  | nil => intro row; simp [nilAugment]
  | cons i is ih =>
    intro row
    simp only [nilAugment]
    split <;> simp [ih] <;> omega

lemma nilAugment_getD (nilV nanV : String) :
    ∀ (is : List Nat) (row : List String), is.Nodup →
      (∀ i ∈ is, i < row.length) →
      ∀ j, j < row.length →
        (nilAugment nilV nanV row is).getD j "" =
          if j ∈ is ∧ row.getD j "" = nilV then nanV else row.getD j "" := by
  intro is
  induction is with
  | nil => intro row _ _ j hj; simp [nilAugment]
  | cons i is ih =>
    intro row hnd hb j hj
    have hi : i < row.length := hb i (List.mem_cons_self i is)
    have hnd' : is.Nodup := (List.nodup_cons.mp hnd).2
    have hni : i ∉ is := (List.nodup_cons.mp hnd).1
    simp only [nilAugment]
    by_cases hc : row.getD i "" = nilV
    · rw [if_pos hc]
      have hb' : ∀ k ∈ is, k < ((row.set i nanV) ++ ["true"]).length := by
        intro k hk
        have := hb k (List.mem_cons_of_mem i hk)
        simp
        omega
      have hj' : j < ((row.set i nanV) ++ ["true"]).length := by simp; omega
      rw [ih _ hnd' hb' j hj']
      by_cases hji : j = i
      · subst hji
        have h1 : ((row.set j nanV) ++ ["true"]).getD j "" = nanV := by
          rw [List.getD_append _ _ _ _ (by simp [hj])]
          simp [List.getD, List.getElem?_set_self hj]
        rw [if_neg (by simp [hni]), h1, if_pos ⟨List.mem_cons_self j is, hc⟩]
      · have h2 : ((row.set i nanV) ++ ["true"]).getD j "" = row.getD j "" := by
          rw [List.getD_append _ _ _ _ (by simp [hj])]
          simp [List.getD, List.getElem?_set_ne (fun h => hji h.symm)]
        rw [h2]
        by_cases hjm : j ∈ is
        · simp [hjm, List.mem_cons, hji]
        · simp [hjm, List.mem_cons, hji]
    · rw [if_neg hc]
      have hb' : ∀ k ∈ is, k < (row ++ ["false"]).length := by
        intro k hk
        have := hb k (List.mem_cons_of_mem i hk)
        simp
        omega
      have hj' : j < (row ++ ["false"]).length := by simp; omega
      rw [ih _ hnd' hb' j hj']
      have h2 : (row ++ ["false"]).getD j "" = row.getD j "" :=
        List.getD_append _ _ _ _ hj
      rw [h2]
      by_cases hji : j = i
      · subst hji
        rw [if_neg (by rintro ⟨hm, hv⟩; exact hc hv),
            if_neg (by rintro ⟨hm, hv⟩; exact hc hv)]
      · by_cases hjm : j ∈ is
        · simp [hjm, List.mem_cons, hji]
        · simp [hjm, List.mem_cons, hji]

lemma getD_append_at {α : Type} (l l' : List α) (d : α) (k : Nat) :
    (l ++ l').getD (l.length + k) d = l'.getD k d := by
  simp [List.getD, List.getElem?_append_right, Nat.le_add_right]

lemma getD_mem_of_lt {α : Type} (l : List α) (n : Nat) (d : α) (h : n < l.length) :
    l.getD n d ∈ l := by
  rw [List.getD_eq_getElem l d h]
  exact List.getElem_mem h

lemma nilAugment_flags (nilV nanV : String) :
    ∀ (is : List Nat) (row : List String), is.Nodup →
      (∀ i ∈ is, i < row.length) →
      ∀ k, k < is.length →
        (nilAugment nilV nanV row is).getD (row.length + k) "" =
          if row.getD (is.getD k 0) "" = nilV then "true" else "false" := by
  intro is
  induction is with
  | nil => intro row _ _ k hk; simp at hk
  | cons i is ih =>
    intro row hnd hb k hk
    have hi : i < row.length := hb i (List.mem_cons_self i is)
    have hnd' : is.Nodup := (List.nodup_cons.mp hnd).2
    have hb2 : ∀ m ∈ is, m < row.length := fun m hm => hb m (List.mem_cons_of_mem i hm)
    simp only [nilAugment]
    by_cases hc : row.getD i "" = nilV
    · rw [if_pos hc]
      have hlen : ((row.set i nanV) ++ ["true"]).length = row.length + 1 := by simp
      have hb' : ∀ m ∈ is, m < ((row.set i nanV) ++ ["true"]).length := by
        intro m hm; rw [hlen]; exact Nat.lt_succ_of_lt (hb2 m hm)
      match k with
      | 0 =>
        have hout := nilAugment_getD nilV nanV is ((row.set i nanV) ++ ["true"])
          hnd' hb' row.length (by rw [hlen]; omega)
        have hnm : row.length ∉ is := fun hm => absurd (hb2 _ hm) (by omega)
        rw [show row.length + 0 = row.length from rfl, hout,
            if_neg (by rintro ⟨hm, _⟩; exact hnm hm)]
        have h1 : ((row.set i nanV) ++ ["true"]).getD row.length ""
            = ["true"].getD 0 "" := by
          have := getD_append_at (row.set i nanV) ["true"] "" 0
          rwa [List.length_set, Nat.add_zero] at this
        rw [h1]
        simp only [List.getD_cons_zero, if_pos hc]
      | k + 1 =>
        have hidx : row.length + (k + 1) = ((row.set i nanV) ++ ["true"]).length + k := by
          rw [hlen]; omega
        rw [hidx, ih _ hnd' hb' k (by simpa using hk)]
        have hm : is.getD k 0 ∈ is := getD_mem_of_lt is k 0 (by simpa using hk)
        have hmi : is.getD k 0 ≠ i := fun h => (List.nodup_cons.mp hnd).1 (h ▸ hm)
        have key : ∀ m, m ∈ is → m ≠ i →
            ((row.set i nanV) ++ ["true"]).getD m "" = row.getD m "" := by
          intro m hm2 hmi2
          rw [List.getD_append _ _ _ _ (by rw [List.length_set]; exact hb2 _ hm2)]
          simp [List.getD, List.getElem?_set_ne (fun h => hmi2 h.symm)]
        rw [key _ hm hmi]
        simp only [List.getD_cons_succ]
    · rw [if_neg hc]
      have hlen : (row ++ ["false"]).length = row.length + 1 := by simp
      have hb' : ∀ m ∈ is, m < (row ++ ["false"]).length := by
        intro m hm; rw [hlen]; exact Nat.lt_succ_of_lt (hb2 m hm)
      match k with
      | 0 =>
        have hout := nilAugment_getD nilV nanV is (row ++ ["false"])
          hnd' hb' row.length (by rw [hlen]; omega)
        have hnm : row.length ∉ is := fun hm => absurd (hb2 _ hm) (by omega)
        rw [show row.length + 0 = row.length from rfl, hout,
            if_neg (by rintro ⟨hm, _⟩; exact hnm hm)]
        have h1 : (row ++ ["false"]).getD row.length "" = ["false"].getD 0 "" := by
          have := getD_append_at row ["false"] "" 0
          rwa [Nat.add_zero] at this
        rw [h1]
        simp only [List.getD_cons_zero, if_neg hc]
      | k + 1 =>
        have hidx : row.length + (k + 1) = (row ++ ["false"]).length + k := by
          rw [hlen]; omega
        rw [hidx, ih _ hnd' hb' k (by simpa using hk)]
        have hm : is.getD k 0 ∈ is := getD_mem_of_lt is k 0 (by simpa using hk)
        have h2 : (row ++ ["false"]).getD (is.getD k 0) "" = row.getD (is.getD k 0) "" :=
          List.getD_append _ _ _ _ (hb2 _ hm)
        rw [h2]
        simp only [List.getD_cons_succ]

/-- C3.  For a parsed row whose field count equals the original declared
column count, Csv2Csv.read succeeds and produces the augmented row: every
field at a null-check position is replaced by the null substitute exactly
when its text equals the null marker (otherwise left unchanged), every field
not at a null-check position is unchanged, the flags true / false are
appended at the tail in the declaration order of the null-check list, and
the output has exactly original-count + null-check-count fields.  The
null-check positions built by get_schema are distinct in-range column
positions, which the hypotheses record. -/
theorem null_substitution_contract :
    ∀ (cfg : Csv2CsvCfg) (fname : String) (nRow : Nat) (row : List String),
      row.length = cfg.nCol →
      cfg.nilC.Nodup →
      (∀ i ∈ cfg.nilC, i < cfg.nCol) →
      ∃ out, csvRead cfg fname nRow row = Except.ok out ∧
        out.length = cfg.nCol + cfg.nilC.length ∧
        (∀ j, j < cfg.nCol → j ∉ cfg.nilC → out.getD j "" = row.getD j "") ∧
        (∀ j ∈ cfg.nilC, out.getD j "" =
          if row.getD j "" = cfg.nilV then cfg.nanV else row.getD j "") ∧
        (∀ k, k < cfg.nilC.length → out.getD (cfg.nCol + k) "" =
          if row.getD (cfg.nilC.getD k 0) "" = cfg.nilV then "true" else "false") := by
  intro cfg fname nRow row hlen hnd hb
  have hb' : ∀ i ∈ cfg.nilC, i < row.length := by rw [hlen]; exact hb
  refine ⟨nilAugment cfg.nilV cfg.nanV row cfg.nilC, ?_, ?_, ?_, ?_, ?_⟩
  · unfold csvRead
    rw [if_neg]
    rintro ⟨_, hne⟩
    exact hne hlen
  · rw [nilAugment_length, hlen]
  · intro j hj hjn
    rw [nilAugment_getD _ _ _ _ hnd hb' j (by omega),
        if_neg (by rintro ⟨hm, _⟩; exact hjn hm)]
  · intro j hj
    rw [nilAugment_getD _ _ _ _ hnd hb' j (hb' j hj)]
    by_cases hv : row.getD j "" = cfg.nilV
    · rw [if_pos ⟨hj, hv⟩, if_pos hv]
    · rw [if_neg (by rintro ⟨_, h⟩; exact hv h), if_neg hv]
  · intro k hk
    rw [← hlen]
    exact nilAugment_flags cfg.nilV cfg.nanV cfg.nilC row hnd hb' k hk

/-- C3 witness: the spec scenario — schema id int NOT NULL, amount
decimal(5,2), flag int with null-check list [2] over the row 1,12.50,\N —
satisfies the contract and produces the augmented row 1,12.50,0,true. -/
theorem null_substitution_contract_witness :
    (∃ out, csvRead { nanV := "0", nCol := 3, nilC := [2], nilV := "\\N" }
        "in.csv" 0 ["1", "12.50", "\\N"] = Except.ok out ∧
      out.length = 3 + [2].length ∧
      (∀ j, j < 3 → j ∉ [2] →
        out.getD j "" = ["1", "12.50", "\\N"].getD j "") ∧
      (∀ j ∈ [2], out.getD j "" =
        if ["1", "12.50", "\\N"].getD j "" = "\\N" then "0"
        else ["1", "12.50", "\\N"].getD j "") ∧
      (∀ k, k < [2].length → out.getD (3 + k) "" =
        if ["1", "12.50", "\\N"].getD ([2].getD k 0) "" = "\\N" then "true"
        else "false")) ∧
    csvRead { nanV := "0", nCol := 3, nilC := [2], nilV := "\\N" }
        "in.csv" 0 ["1", "12.50", "\\N"]
      = Except.ok ["1", "12.50", "0", "true"] :=
  ⟨null_substitution_contract _ "in.csv" 0 _ (by decide) (by decide) (by decide),
   by decide⟩

/-! ## Claims C8 and C10: schema verification -/

lemma verGo_true (st : SchemaState) :
    ∀ (df : List (String × ObsType)) (ncols : Nat) (msgs : List String) (isaok : Bool),
      verGo st true df ncols msgs isaok =
        (msgs ++ (df.filter (colMismatch st)).map (mismatchMsg st)
          ++ (if ncols + df.length = st.colTypes.length then []
              else [countMsg st.colTypes.length (ncols + df.length)]),
         if isaok && (df.all (fun p => !colMismatch st p))
            && decide (ncols + df.length = st.colTypes.length)
         then st.colNames.take st.colOrigs else []) := by
  intro df
  induction df with
  | nil =>
    intro ncols msgs isaok
    simp only [verGo, List.filter_nil, List.map_nil, List.append_nil,
      List.length_nil, Nat.add_zero, List.all_nil, Bool.and_true]
    by_cases h : ncols = st.colTypes.length
    · simp [h]
    · simp [h]
  | cons p rest ih =>
    obtain ⟨cname, otype⟩ := p
    intro ncols msgs isaok
    have e : ncols + 1 + rest.length = ncols + (rest.length + 1) := by omega
    simp only [verGo]
    cases hl : List.lookup cname st.colTypes with
    | some stype =>
      dsimp only
      by_cases hm : stype = obsAdjust otype
      · rw [if_neg (not_ne_iff.mpr hm), ih, e]
        have hmm : colMismatch st (cname, otype) = false := by
          simp [colMismatch, hl, hm]
        simp only [List.filter_cons, List.all_cons, hmm]
        simp only [Bool.not_false, Bool.true_and, Bool.and_assoc, if_neg, Bool.false_and]
        simp
      · rw [if_pos hm, ih, e]
        have hmm : colMismatch st (cname, otype) = true := by
          simp [colMismatch, hl, hm]
        have hms : mismatchMsg st (cname, otype) = typeMsg cname (obsAdjust otype) stype := by
          simp [mismatchMsg, hl]
        simp only [List.filter_cons, List.all_cons, hmm, hms]
        simp [Bool.and_assoc]
        exact hms.symm
    | none =>
      dsimp only
      rw [ih, e]
      have hmm : colMismatch st (cname, otype) = true := by
        simp [colMismatch, hl]
      have hms : mismatchMsg st (cname, otype) = missingMsg cname := by
        simp [mismatchMsg, hl]
      simp only [List.filter_cons, List.all_cons, hmm, hms]
      simp [Bool.and_assoc]
      exact hms.symm

lemma verGo_false_clean (st : SchemaState) :
    ∀ (df : List (String × ObsType)) (ncols : Nat) (msgs : List String) (isaok : Bool),
      (∀ p ∈ df, colMismatch st p = false) →
      verGo st false df ncols msgs isaok =
        (msgs ++ (if ncols + df.length = st.colTypes.length then []
                  else [countMsg st.colTypes.length (ncols + df.length)]),
         if isaok && decide (ncols + df.length = st.colTypes.length)
         then st.colNames.take st.colOrigs else []) := by
  intro df
  induction df with
  | nil =>
    intro ncols msgs isaok _
    simp only [verGo, List.length_nil, Nat.add_zero]
    by_cases h : ncols = st.colTypes.length
    · simp [h]
    · simp [h]
  | cons p rest ih =>
    obtain ⟨cname, otype⟩ := p
    intro ncols msgs isaok hclean
    have hmm : colMismatch st (cname, otype) = false :=
      hclean _ (List.mem_cons_self _ _)
    have e : ncols + 1 + rest.length = ncols + (rest.length + 1) := by omega
    simp only [verGo]
    cases hl : List.lookup cname st.colTypes with
    | some stype =>
      dsimp only
      have hm : stype = obsAdjust otype := by
        by_contra hne
        rw [colMismatch, hl] at hmm
        simp [hne] at hmm
      rw [if_neg (not_ne_iff.mpr hm),
          ih _ _ _ (fun q hq => hclean q (List.mem_cons_of_mem _ hq)), e]
      simp
    | none =>
      exfalso
      rw [colMismatch, hl] at hmm
      simp at hmm

lemma verGo_false_split (st : SchemaState) :
    ∀ (good : List (String × ObsType)) (bad : String × ObsType)
      (rest : List (String × ObsType)) (ncols : Nat) (msgs : List String) (isaok : Bool),
      (∀ p ∈ good, colMismatch st p = false) →
      colMismatch st bad = true →
      verGo st false (good ++ bad :: rest) ncols msgs isaok
        = (msgs ++ [mismatchMsg st bad], []) := by
  intro good
  induction good with
  | nil =>
    intro bad rest ncols msgs isaok _ hbad
    obtain ⟨cname, otype⟩ := bad
    simp only [List.nil_append, verGo]
    cases hl : List.lookup cname st.colTypes with
    | some stype =>
      dsimp only
      have hm : stype ≠ obsAdjust otype := by
        intro he
        rw [colMismatch, hl] at hbad
        simp [he] at hbad
      rw [if_pos hm, mismatchMsg, hl]
      simp
    | none =>
      dsimp only
      rw [mismatchMsg, hl]
      simp
  | cons g good ih =>
    obtain ⟨cname, otype⟩ := g
    intro bad rest ncols msgs isaok hclean hbad
    have hmm : colMismatch st (cname, otype) = false :=
      hclean _ (List.mem_cons_self _ _)
    simp only [List.cons_append, verGo]
    cases hl : List.lookup cname st.colTypes with
    | some stype =>
      dsimp only
      have hm : stype = obsAdjust otype := by
        by_contra hne
        rw [colMismatch, hl] at hmm
        simp [hne] at hmm
      rw [if_neg (not_ne_iff.mpr hm)]
      exact ih bad rest _ _ _ (fun q hq => hclean q (List.mem_cons_of_mem _ hq)) hbad
    | none =>
      exfalso
      rw [colMismatch, hl] at hmm
      simp at hmm

/-- C8.  Schema verification.  (a) When every dataframe column is present in
the schema with the right type (byte-string observed types matching any
byte-string schema type via the object adjustment) and the column count
matches, verification prints nothing and returns exactly the original
non-synthetic column names colNames[0:colOrigs], in both modes.  (b) In
collect-all mode the printed messages are exactly one message per
mismatching column, in order, plus the final count message when the counts
differ.  (c) In collect-all mode any mismatching column forces rejection
(the empty result).  (d) In fail-fast mode verification stops at the first
mismatching column: the result is that column's message alone and
rejection, independent of everything after it. -/
theorem ver_dataframe_modes (st : SchemaState) :
    (∀ (df : List (String × ObsType)) (blab : Bool),
      (∀ p ∈ df, colMismatch st p = false) →
      df.length = st.colTypes.length →
      ver_dataframe st df blab = ([], st.colNames.take st.colOrigs)) ∧
    (∀ df : List (String × ObsType),
      (ver_dataframe st df true).1
        = (df.filter (colMismatch st)).map (mismatchMsg st)
          ++ (if df.length = st.colTypes.length then []
              else [countMsg st.colTypes.length df.length])) ∧
    (∀ (df : List (String × ObsType)) (p : String × ObsType),
      p ∈ df → colMismatch st p = true → (ver_dataframe st df true).2 = []) ∧
    (∀ (good : List (String × ObsType)) (bad : String × ObsType)
       (rest : List (String × ObsType)),
      (∀ p ∈ good, colMismatch st p = false) → colMismatch st bad = true →
      ver_dataframe st (good ++ bad :: rest) false
        = ([mismatchMsg st bad], [])) := by
  refine ⟨?_, ?_, ?_, ?_⟩
  · intro df blab hclean hlen
    cases blab
    · rw [ver_dataframe, verGo_false_clean st df 0 [] true hclean]
      simp [hlen]
    · rw [ver_dataframe, verGo_true]
      have hfil : df.filter (colMismatch st) = [] := by
        simp only [List.filter_eq_nil_iff]
        intro p hp
        simp [hclean p hp]
      have hall : df.all (fun p => !colMismatch st p) = true := by
        simp only [List.all_eq_true]
        intro p hp
        simp [hclean p hp]
      simp [hfil, hall, hlen]
  · intro df
    rw [ver_dataframe, verGo_true]
    simp
  · intro df p hp hbad
    rw [ver_dataframe, verGo_true]
    have : df.all (fun q => !colMismatch st q) = false := by
      simp only [List.all_eq_false]
      exact ⟨p, hp, by simp [hbad]⟩
    simp [this]
  · intro good bad rest hclean hbad
    rw [ver_dataframe, verGo_false_split st good bad rest 0 [] true hclean hbad]
    simp

/-- C10.  Even when every column present in the data matches the schema, a
dataframe with fewer columns than the schema's type map (for instance a
missing synthetic _ISNULL column) is rejected with the count-comparison
message, in both fail-fast and collect-all modes. -/
theorem ver_count_check_rejects :
    ∀ (st : SchemaState) (df : List (String × ObsType)) (blab : Bool),
      (∀ p ∈ df, colMismatch st p = false) →
      df.length < st.colTypes.length →
      ver_dataframe st df blab = ([countMsg st.colTypes.length df.length], []) := by
  intro st df blab hclean hlt
  cases blab
  · rw [ver_dataframe, verGo_false_clean st df 0 [] true hclean]
    simp only [Nat.zero_add]
    rw [if_neg (by omega)]
    simp [show ¬(df.length = st.colTypes.length) from by omega]
  · rw [ver_dataframe, verGo_true]
    have hfil : df.filter (colMismatch st) = [] := by
      simp only [List.filter_eq_nil_iff]
      intro p hp
      simp [hclean p hp]
    simp only [Nat.zero_add, hfil]
    rw [if_neg (by omega)]
    simp [show ¬(df.length = st.colTypes.length) from by omega]

/-- C8 witness: the one-nullable-int32-column schema accepts its exact
dataframe in collect-all mode, and fail-fast mode stops on a first
mismatching column. -/
theorem ver_dataframe_modes_witness :
    ver_dataframe stRT [("c", ObsType.np .int32), ("c_ISNULL", ObsType.np .bool_)] true
      = ([], ["c"]) ∧
    ver_dataframe stRT [("c", ObsType.np .int64)] false
      = ([mismatchMsg stRT ("c", ObsType.np .int64)], []) := by
  constructor
  · rw [(ver_dataframe_modes stRT).1
      [("c", ObsType.np .int32), ("c_ISNULL", ObsType.np .bool_)] true
      (by decide) (by decide)]
    decide
  · exact (ver_dataframe_modes stRT).2.2.2 [] ("c", ObsType.np .int64) []
      (by simp) (by decide)

/-- C10 witness: the same schema rejects a dataframe holding only the
matching data column (the synthetic _ISNULL column is absent) with the
count message. -/
theorem ver_count_check_rejects_witness :
    ver_dataframe stRT [("c", ObsType.np .int32)] false
      = ([countMsg 2 1], []) := by
  rw [ver_count_check_rejects stRT [("c", ObsType.np .int32)] false
    (by decide) (by decide)]
  decide

/-! ## Claim C7: fixed-point rendering (Schema._format) -/

lemma digit_char_isDigit (d : Nat) (h : d < 10) :
    (Char.ofNat (48 + d)).isDigit = true := by
  interval_cases d <;> decide

lemma natDigitsAux_digits :
    ∀ (fuel n : Nat), n < fuel → ∀ c ∈ natDigitsAux fuel n, c.isDigit = true := by
  intro fuel
  induction fuel with
  | zero => intro n h; omega
  | succ fuel ih =>
    intro n hn c hc
    rw [natDigitsAux] at hc
    by_cases h : n < 10
    · rw [if_pos h] at hc
      simp only [List.mem_singleton] at hc
      subst hc
      exact digit_char_isDigit n h
    · rw [if_neg h] at hc
      rcases List.mem_append.mp hc with hc | hc
      · exact ih (n / 10) (by omega) c hc
      · simp only [List.mem_singleton] at hc
        subst hc
        exact digit_char_isDigit (n % 10) (Nat.mod_lt _ (by omega))

lemma natDigits_digits (n : Nat) : ∀ c ∈ natDigits n, c.isDigit = true :=
  natDigitsAux_digits (n + 1) n (Nat.lt_succ_self n)

lemma natDigitsAux_ne_nil (fuel n : Nat) (h : n < fuel) :
    natDigitsAux fuel n ≠ [] := by
  cases fuel with
  | zero => omega
  | succ fuel =>
    rw [natDigitsAux]
    by_cases h10 : n < 10
    · simp [h10]
    · simp [h10]

lemma natDigitsAux_length_le :
    ∀ (fuel n k : Nat), n < fuel → n < 10 ^ k → 1 ≤ k →
      (natDigitsAux fuel n).length ≤ k := by
  intro fuel
  induction fuel with
  | zero => intro n k h; omega
  | succ fuel ih =>
    intro n k hn hnk hk
    rw [natDigitsAux]
    by_cases h : n < 10
    · rw [if_pos h]
      simpa using hk
    · rw [if_neg h]
      have hk2 : 2 ≤ k := by
        by_contra hlt
        have : k = 1 := by omega
        subst this
        simp at hnk
        omega
      have hdiv : n / 10 < 10 ^ (k - 1) := by
        rw [Nat.div_lt_iff_lt_mul (by omega : (0:Nat) < 10)]
        calc n < 10 ^ k := hnk
          _ = 10 ^ (k - 1) * 10 := by
              rw [← Nat.pow_succ]
              congr 1
              omega
      have := ih (n / 10) (k - 1) (by omega) hdiv (by omega)
      simp only [List.length_append, List.length_singleton]
      omega

lemma padLeftZeros_length (l : List Char) (n : Nat) (h : l.length ≤ n) :
    (padLeftZeros l n).length = n := by
  simp [padLeftZeros]
  omega

lemma padLeftZeros_digits (l : List Char) (n : Nat)
    (h : ∀ c ∈ l, c.isDigit = true) :
    ∀ c ∈ padLeftZeros l n, c.isDigit = true := by
  intro c hc
  rcases List.mem_append.mp hc with hc | hc
  · rw [List.eq_of_mem_replicate hc]
    decide
  · exact h c hc

lemma fixedRenderL_structure (q : PyFloat) (s : Nat) (hs : s ≠ 0) :
    ∃ pre frac, fixedRenderL q s = pre ++ '.' :: frac ∧ frac ≠ [] ∧
      (∀ c ∈ frac, c.isDigit = true) := by
  rw [fixedRenderL, if_neg hs]
  set m := scaledRoundHalfEven q.num q.den (10 ^ s) with hm
  refine ⟨(if m < 0 then ['-'] else []) ++ natDigits (m.natAbs / 10 ^ s),
    padLeftZeros (natDigits (m.natAbs % 10 ^ s)) s, by rw [List.append_assoc], ?_, ?_⟩
  · have hlen : (natDigits (m.natAbs % 10 ^ s)).length ≤ s :=
      natDigitsAux_length_le _ _ s (Nat.lt_succ_self _)
        (Nat.mod_lt _ (Nat.pos_pow_of_pos s (by omega))) (by omega)
    have := padLeftZeros_length (natDigits (m.natAbs % 10 ^ s)) s hlen
    intro hnil
    rw [hnil] at this
    simp at this
    omega
  · exact padLeftZeros_digits _ _ (natDigits_digits _)

lemma dropWhile_head_false (p : Char → Bool) :
    ∀ (l cs : List Char) (c : Char), l.dropWhile p = c :: cs → p c = false := by
  intro l
  induction l with
  | nil => intro cs c h; simp at h
  | cons a l ih =>
    intro cs c h
    rw [List.dropWhile_cons] at h
    by_cases hp : p a
    · rw [if_pos hp] at h
      exact ih cs c h
    · rw [if_neg hp] at h
      obtain ⟨rfl, -⟩ := List.cons.inj h
      simpa using hp

lemma trimZerosL_spec (pre frac : List Char)
    (hd : ∀ c ∈ frac, c.isDigit = true) :
    ('.' ∈ trimZerosL (pre ++ '.' :: frac)) ∧
    (trimZerosL (pre ++ '.' :: frac)).getLast? ≠ some '.' ∧
    ((trimZerosL (pre ++ '.' :: frac)).getLast? = some '0' →
      ∃ l2, trimZerosL (pre ++ '.' :: frac) = l2 ++ ['.', '0']) := by
  have hrev : (pre ++ '.' :: frac).reverse = frac.reverse ++ '.' :: pre.reverse := by
    simp
  rw [trimZerosL, rstripL, hrev, List.dropWhile_append]
  by_cases hdw : frac.reverse.dropWhile (· = '0') = []
  · rw [hdw]
    simp only [List.isEmpty_nil, if_true]
    rw [List.dropWhile_cons]
    simp only [show (('.' : Char) = '0') = False from by simp, decide_False,
      Bool.false_eq_true, if_false]
    have hr : ('.' :: pre.reverse).reverse = pre ++ ['.'] := by simp
    rw [hr, List.getLast?_concat, if_pos rfl]
    refine ⟨by simp, ?_, ?_⟩
    · rw [show (pre ++ ['.']) ++ ['0'] = pre ++ ['.', '0'] from by simp,
        List.getLast?_append_of_ne_nil pre (by simp)]
      decide
    · intro _
      exact ⟨pre, by simp⟩
  · obtain ⟨c, d, hcd⟩ := List.exists_cons_of_ne_nil hdw
    rw [hcd]
    simp only [List.isEmpty_cons, Bool.false_eq_true, if_false]
    have hc0 : ¬(c = '0') := by
      have := dropWhile_head_false (· = '0') frac.reverse d c hcd
      simpa using this
    have hcd2 : c.isDigit = true := by
      have hmem : c ∈ frac.reverse := by
        have hsub := List.dropWhile_sublist (l := frac.reverse) (p := (· = '0'))
        rw [hcd] at hsub
        exact hsub.mem (List.mem_cons_self c d)
      exact hd c (List.mem_reverse.mp hmem)
    have hcdot : c ≠ '.' := by
      intro h
      rw [h] at hcd2
      simp at hcd2
    rw [show (c :: d ++ '.' :: pre.reverse).reverse
          = pre ++ '.' :: (d.reverse ++ [c]) from by simp]
    have hlast2 : (pre ++ '.' :: (d.reverse ++ [c])).getLast? = some c := by
      rw [List.getLast?_append_of_ne_nil pre (by simp),
          show ('.' :: (d.reverse ++ [c])) = ['.'] ++ (d.reverse ++ [c]) from rfl,
          List.getLast?_append_of_ne_nil _ (by simp), List.getLast?_concat]
    have hlast3 : ('.' :: (d.reverse ++ [c])).getLast? = some c := by
      rw [show ('.' :: (d.reverse ++ [c])) = ['.'] ++ (d.reverse ++ [c]) from rfl,
          List.getLast?_append_of_ne_nil _ (by simp), List.getLast?_concat]
    rw [hlast2, if_neg (by simp [hcdot])]
    refine ⟨by simp, by simp [hlast3, hcdot], ?_⟩
    intro h0
    rw [hlast2] at h0
    exact absurd (by simpa using h0) hc0

/-- C7.  Fixed-point rendering by Schema._format under a registered ".sf"
format with positive scale: the value 0.0 renders as the literal "0.0"
whatever the format in effect; every other value renders as the fixed-point
text of the value with trailing zero digits stripped, and the result always
keeps at least one digit after the decimal point — it contains a point, does
not end with the point, and ends in the digit 0 only as the mandatory ".0"
tail (so "1.200" becomes "1.2" and "1.000" becomes "1.0"). -/
theorem fixed_point_rendering :
    (∀ (fmt : String) (y : PyFloat), y.num = 0 → formatx fmt y = "0.0") ∧
    (∀ (fmt : String) (s : Nat) (x : PyFloat),
      parseFmt fmt = some s → 0 < s → x.num ≠ 0 →
      (formatx fmt x).data = trimZerosL (fixedRenderL x s) ∧
      '.' ∈ (formatx fmt x).data ∧
      (formatx fmt x).data.getLast? ≠ some '.' ∧
      ((formatx fmt x).data.getLast? = some '0' →
        ∃ l2, (formatx fmt x).data = l2 ++ ['.', '0'])) := by
  constructor
  · intro fmt y hy
    rw [formatx, if_pos hy]
  · intro fmt s x hp hs hx
    have hfx : (formatx fmt x).data = trimZerosL (fixedRenderL x s) := by
      rw [formatx, if_neg hx, hp]
    obtain ⟨pre, frac, hst, hfne, hfd⟩ := fixedRenderL_structure x s (by omega)
    have hspec := trimZerosL_spec pre frac hfd
    rw [hfx, hst]
    exact ⟨rfl, hspec.1, hspec.2.1, hspec.2.2⟩

/-- C7 witness: zero and the spec examples 1.2 under ".3f" (renders "1.2"),
1 under ".3f" (renders "1.0") and 12.50 under ".2f" (renders "12.5"). -/
theorem fixed_point_rendering_witness :
    formatx ".3f" { num := 0 } = "0.0" ∧
    (formatx ".3f" { num := 6, den := 5 }).data
      = trimZerosL (fixedRenderL { num := 6, den := 5 } 3) ∧
    formatx ".3f" { num := 6, den := 5 } = "1.2" ∧
    formatx ".3f" { num := 1 } = "1.0" ∧
    formatx ".2f" { num := 1250, den := 100 } = "12.5" :=
  ⟨fixed_point_rendering.1 ".3f" { num := 0 } rfl,
   (fixed_point_rendering.2 ".3f" 3 { num := 6, den := 5 }
      (by decide) (by decide) (by decide)).1,
   by decide, by decide, by decide⟩

/-! ## Claim C6: the null-flag augmentation invariants of get_schema -/

lemma get_type_effect (cname ctype : String) (cnull : Bool) (st : SchemaState)
    (cn : List (Nat × String)) (st' : SchemaState) (cn' : List (Nat × String))
    (h : get_type cname ctype cnull st cn = Except.ok (st', cn')) :
    st'.colNames = st.colNames ∧ st'.colNVChk = st.colNVChk ∧
    cn' = cn ++ (if cnull && TypeInfo.isInt.contains (resolveToken ctype)
                 then [(st.colNames.length - 1, cname ++ "_ISNULL")] else []) := by
  by_cases h1 : strTake (pyLower ctype) 4 = "char" ∨ strTake (pyLower ctype) 7 = "varchar"
  · simp only [get_type, if_pos h1] at h
    rw [show List.lookup "char" TypeInfo.table = some NpType.bytes_ from rfl] at h
    dsimp only at h
    rw [show TypeInfo.isInt.contains "char" = false from rfl, Bool.and_false,
      if_neg (by simp)] at h
    obtain ⟨hst, hcn⟩ := Prod.mk.inj (Except.ok.inj h)
    refine ⟨by rw [← hst], by rw [← hst], ?_⟩
    rw [← hcn, show resolveToken ctype = "char" from by simp [resolveToken, if_pos h1],
      show TypeInfo.isInt.contains "char" = false from rfl, Bool.and_false,
      if_neg (by simp)]
    simp
  · by_cases h2 : strTake (pyLower ctype) 8 = "decimal("
    · simp only [get_type, if_neg h1, if_pos h2] at h
      have hres : resolveToken ctype = (get_dectype (strDrop (pyLower ctype) 8)).1 := by
        simp [resolveToken, if_neg h1, if_pos h2]
      rcases hg : get_dectype (strDrop (pyLower ctype) 8) with ⟨xt, fo⟩
      rw [hg] at h
      rw [hg] at hres
      simp only at hres
      cases fo with
      | some f =>
        dsimp only at h
        cases hl : List.lookup xt TypeInfo.table with
        | none => rw [hl] at h; cases h
        | some npt =>
          rw [hl] at h
          dsimp only at h
          by_cases hcc : (cnull && TypeInfo.isInt.contains xt) = true
          · rw [if_pos hcc] at h
            obtain ⟨hst, hcn⟩ := Prod.mk.inj (Except.ok.inj h)
            refine ⟨by rw [← hst], by rw [← hst], ?_⟩
            rw [← hcn, hres, if_pos hcc]
          · rw [if_neg hcc] at h
            obtain ⟨hst, hcn⟩ := Prod.mk.inj (Except.ok.inj h)
            refine ⟨by rw [← hst], by rw [← hst], ?_⟩
            rw [← hcn, hres, if_neg hcc]
            simp
      | none =>
        dsimp only at h
        cases hl : List.lookup xt TypeInfo.table with
        | none => rw [hl] at h; cases h
        | some npt =>
          rw [hl] at h
          dsimp only at h
          by_cases hcc : (cnull && TypeInfo.isInt.contains xt) = true
          · rw [if_pos hcc] at h
            obtain ⟨hst, hcn⟩ := Prod.mk.inj (Except.ok.inj h)
            refine ⟨by rw [← hst], by rw [← hst], ?_⟩
            rw [← hcn, hres, if_pos hcc]
          · rw [if_neg hcc] at h
            obtain ⟨hst, hcn⟩ := Prod.mk.inj (Except.ok.inj h)
            refine ⟨by rw [← hst], by rw [← hst], ?_⟩
            rw [← hcn, hres, if_neg hcc]
            simp
    · simp only [get_type, if_neg h1, if_neg h2] at h
      have hres : resolveToken ctype = pyLower ctype := by
        simp [resolveToken, if_neg h1, if_neg h2]
      cases hl : List.lookup (pyLower ctype) TypeInfo.table with
      | none => rw [hl] at h; cases h
      | some t =>
        rw [hl] at h
        dsimp only at h
        by_cases hf32 : t = NpType.float32
        · rw [if_pos hf32] at h
          dsimp only at h
          rw [hl] at h
          dsimp only at h
          by_cases hcc : (cnull && TypeInfo.isInt.contains (pyLower ctype)) = true
          · rw [if_pos hcc] at h
            obtain ⟨hst, hcn⟩ := Prod.mk.inj (Except.ok.inj h)
            refine ⟨by rw [← hst], by rw [← hst], ?_⟩
            rw [← hcn, hres, if_pos hcc]
          · rw [if_neg hcc] at h
            obtain ⟨hst, hcn⟩ := Prod.mk.inj (Except.ok.inj h)
            refine ⟨by rw [← hst], by rw [← hst], ?_⟩
            rw [← hcn, hres, if_neg hcc]
            simp
        · rw [if_neg hf32] at h
          by_cases hf64 : t = NpType.float64
          · rw [if_pos hf64] at h
            dsimp only at h
            rw [hl] at h
            dsimp only at h
            by_cases hcc : (cnull && TypeInfo.isInt.contains (pyLower ctype)) = true
            · rw [if_pos hcc] at h
              obtain ⟨hst, hcn⟩ := Prod.mk.inj (Except.ok.inj h)
              refine ⟨by rw [← hst], by rw [← hst], ?_⟩
              rw [← hcn, hres, if_pos hcc]
            · rw [if_neg hcc] at h
              obtain ⟨hst, hcn⟩ := Prod.mk.inj (Except.ok.inj h)
              refine ⟨by rw [← hst], by rw [← hst], ?_⟩
              rw [← hcn, hres, if_neg hcc]
              simp
          · rw [if_neg hf64] at h
            dsimp only at h
            rw [hl] at h
            dsimp only at h
            by_cases hcc : (cnull && TypeInfo.isInt.contains (pyLower ctype)) = true
            · rw [if_pos hcc] at h
              obtain ⟨hst, hcn⟩ := Prod.mk.inj (Except.ok.inj h)
              refine ⟨by rw [← hst], by rw [← hst], ?_⟩
              rw [← hcn, hres, if_pos hcc]
            · rw [if_neg hcc] at h
              obtain ⟨hst, hcn⟩ := Prod.mk.inj (Except.ok.inj h)
              refine ⟨by rw [← hst], by rw [← hst], ?_⟩
              rw [← hcn, hres, if_neg hcc]
              simp

lemma schLine_effect (st : SchemaState) (cn : List (Nat × String)) (line : String)
    (st' : SchemaState) (cn' : List (Nat × String))
    (h : schLine false (st, cn) line = Except.ok (st', cn')) :
    (pySplitWs line = [] ∧ st' = st ∧ cn' = cn) ∨
    (∃ t0 rest, pySplitWs line = t0 :: rest ∧
      st'.colNames = st.colNames ++ [t0] ∧ st'.colNVChk = st.colNVChk ∧
      cn' = cn ++ (if colMakesNull (t0 :: rest)
                   then [(st.colNames.length, t0 ++ "_ISNULL")] else [])) := by
  rw [schLine] at h
  cases hts : pySplitWs line with
  | nil =>
    rw [hts] at h
    obtain ⟨hst, hcn⟩ := Prod.mk.inj (Except.ok.inj h)
    exact Or.inl ⟨rfl, hst.symm, hcn.symm⟩
  | cons t0 rest =>
    rw [hts] at h
    dsimp only at h
    refine Or.inr ⟨t0, rest, rfl, ?_⟩
    cases rest with
    | nil =>
      simp only [show (!false && decide ([t0].length > 1)) = false from by simp,
        Bool.false_eq_true, if_false] at h
      have hcm : colMakesNull [t0] = false := by
        simp [colMakesNull]
      simp only [hcm, Bool.false_eq_true, if_false, List.append_nil]
      by_cases ht0 : t0 ≠ ""
      · rw [if_pos ht0] at h
        obtain ⟨hst, hcn⟩ := Prod.mk.inj (Except.ok.inj h)
        refine ⟨by rw [← hst, add_col], by rw [← hst, add_col], hcn.symm⟩
      · rw [if_neg ht0] at h
        obtain ⟨hst, hcn⟩ := Prod.mk.inj (Except.ok.inj h)
        refine ⟨by rw [← hst, add_col], by rw [← hst, add_col], hcn.symm⟩
    | cons t1 rest2 =>
      simp only [show (!false && decide ((t0 :: t1 :: rest2).length > 1)) = true from by
        simp, if_true] at h
      have heff := get_type_effect t0 ((t0 :: t1 :: rest2).getD 1 "")
        (can_be_null ((t0 :: t1 :: rest2).drop 2)) _ cn st' cn' h
      have hnames : (if can_be_null ((t0 :: t1 :: rest2).drop 2) then add_col t0 st
          else { add_col t0 st with
                 colNotNull := (add_col t0 st).colNotNull ++ [t0] }).colNames
          = st.colNames ++ [t0] := by
        split <;> rw [add_col]
      have hchk : (if can_be_null ((t0 :: t1 :: rest2).drop 2) then add_col t0 st
          else { add_col t0 st with
                 colNotNull := (add_col t0 st).colNotNull ++ [t0] }).colNVChk
          = st.colNVChk := by
        split <;> rw [add_col]
      rw [hnames, hchk] at heff
      have hdec : colMakesNull (t0 :: t1 :: rest2)
          = (can_be_null ((t0 :: t1 :: rest2).drop 2)
             && TypeInfo.isInt.contains (resolveToken ((t0 :: t1 :: rest2).getD 1 ""))) := by
        simp [colMakesNull]
      have hlen2 : (st.colNames ++ [t0]).length - 1 = st.colNames.length := by simp
      refine ⟨heff.1, heff.2.1, ?_⟩
      rw [heff.2.2, hdec, hlen2]

lemma nullCompanionsAux_cons (base : Nat) (toks : List String) (l : List (List String)) :
    nullCompanionsAux base (toks :: l)
      = (if colMakesNull toks then [(base, toks.headD "" ++ "_ISNULL")] else [])
        ++ nullCompanionsAux (base + 1) l := rfl

lemma declaredCols_cons (line : String) (rest : List String) :
    declaredCols (line :: rest)
      = if pySplitWs line = [] then declaredCols rest
        else pySplitWs line :: declaredCols rest := rfl

lemma schLines_effect :
    ∀ (recs : List String) (st : SchemaState) (cn : List (Nat × String))
      (st' : SchemaState) (cn' : List (Nat × String)),
      schLines false recs (st, cn) = Except.ok (st', cn') →
      st'.colNames = st.colNames ++ origColNames recs ∧
      st'.colNVChk = st.colNVChk ∧
      cn' = cn ++ nullCompanionsAux st.colNames.length (declaredCols recs) := by
  intro recs
  induction recs with
  | nil =>
    intro st cn st' cn' h
    obtain ⟨hst, hcn⟩ := Prod.mk.inj (Except.ok.inj h)
    refine ⟨?_, by rw [← hst], ?_⟩
    · rw [← hst, origColNames, declaredCols]
      simp
    · rw [← hcn, declaredCols, nullCompanionsAux]
      simp
  | cons line rest ih =>
    intro st cn st' cn' h
    rw [schLines] at h
    cases hline : schLine false (st, cn) line with
    | error e => rw [hline] at h; cases h
    | ok acc1 =>
      rw [hline] at h
      dsimp only at h
      obtain ⟨st1, cn1⟩ := acc1
      rcases schLine_effect st cn line st1 cn1 hline with
        ⟨hts, hst1, hcn1⟩ | ⟨t0, trest, hts, hn1, hv1, hc1⟩
      · obtain ⟨hn', hv', hc'⟩ := ih st1 cn1 st' cn' h
        subst hst1
        subst hcn1
        have hdecl0 : declaredCols (line :: rest) = declaredCols rest := by
          rw [declaredCols_cons, if_pos hts]
        have horig0 : origColNames (line :: rest) = origColNames rest := by
          rw [origColNames, hdecl0, ← origColNames]
        refine ⟨by rw [hn', horig0], hv', by rw [hc', hdecl0]⟩
      · obtain ⟨hn', hv', hc'⟩ := ih st1 cn1 st' cn' h
        have hdecl : declaredCols (line :: rest) = (t0 :: trest) :: declaredCols rest := by
          rw [declaredCols_cons, if_neg (by rw [hts]; simp)]
          rw [hts]
        have horig : origColNames (line :: rest) = t0 :: origColNames rest := by
          rw [origColNames, hdecl, List.map_cons, ← origColNames]
          simp
        refine ⟨?_, by rw [hv', hv1], ?_⟩
        · rw [hn', hn1, horig]
          simp
        · rw [hc', hc1, hdecl, nullCompanionsAux_cons, hn1]
          simp only [List.length_append, List.length_singleton, List.headD_cons]
          rw [List.append_assoc]

lemma foldl_addcols :
    ∀ (cn : List (Nat × String)) (st : SchemaState),
      (cn.foldl (fun s x => add_col x.2 { s with colNVChk := s.colNVChk ++ [x.1] }) st).colNames
        = st.colNames ++ cn.map Prod.snd ∧
      (cn.foldl (fun s x => add_col x.2 { s with colNVChk := s.colNVChk ++ [x.1] }) st).colNVChk
        = st.colNVChk ++ cn.map Prod.fst ∧
      (cn.foldl (fun s x => add_col x.2 { s with colNVChk := s.colNVChk ++ [x.1] }) st).colOrigs
        = st.colOrigs := by
  intro cn
  induction cn with
  | nil => intro st; simp
  | cons x cn ih =>
    intro st
    simp only [List.foldl_cons, List.map_cons]
    obtain ⟨h1, h2, h3⟩ := ih (add_col x.2 { st with colNVChk := st.colNVChk ++ [x.1] })
    refine ⟨?_, ?_, ?_⟩
    · rw [h1, add_col]
      simp
    · rw [h2, add_col]
      simp
    · rw [h3, add_col]

lemma nullCompanionsAux_fst_mem :
    ∀ (l : List (List String)) (base j : Nat),
      (j ∈ (nullCompanionsAux base l).map Prod.fst ↔
        ∃ k, k < l.length ∧ j = base + k ∧ colMakesNull (l.getD k []) = true) := by
  intro l
  induction l with
  | nil =>
    intro base j
    simp [nullCompanionsAux]
  | cons toks l ih =>
    intro base j
    rw [nullCompanionsAux_cons]
    simp only [List.map_append, List.mem_append]
    constructor
    · rintro (hj | hj)
      · by_cases hcm : colMakesNull toks
        · rw [if_pos hcm] at hj
          simp only [List.map_cons, List.map_nil, List.mem_singleton] at hj
          subst hj
          exact ⟨0, by simp, by omega, by simpa using hcm⟩
        · rw [if_neg hcm] at hj
          simp at hj
      · obtain ⟨k, hk, hjk, hcm⟩ := (ih (base + 1) j).mp hj
        refine ⟨k + 1, by simpa using hk, by omega, by simpa using hcm⟩
    · rintro ⟨k, hk, hjk, hcm⟩
      cases k with
      | zero =>
        left
        rw [List.getD_cons_zero] at hcm
        rw [if_pos hcm]
        simp
        omega
      | succ k =>
        right
        refine (ih (base + 1) j).mpr ⟨k, by simp at hk; omega, by omega, ?_⟩
        rw [List.getD_cons_succ] at hcm
        exact hcm

lemma nullCompanionsAux_entry :
    ∀ (l : List (List String)) (base : Nat) (p : Nat × String),
      p ∈ nullCompanionsAux base l →
      base ≤ p.1 ∧ p.1 - base < l.length ∧
      p.2 = ((l.getD (p.1 - base) []).headD "") ++ "_ISNULL" := by
  intro l
  induction l with
  | nil =>
    intro base p hp
    simp [nullCompanionsAux] at hp
  | cons toks l ih =>
    intro base p hp
    rw [nullCompanionsAux_cons] at hp
    rcases List.mem_append.mp hp with hp | hp
    · by_cases hcm : colMakesNull toks
      · rw [if_pos hcm] at hp
        simp only [List.mem_singleton] at hp
        subst hp
        refine ⟨le_refl _, ?_, ?_⟩
        · simp
        · simp
      · rw [if_neg hcm] at hp
        simp at hp
    · obtain ⟨hb, hlt, hval⟩ := ih (base + 1) p hp
      refine ⟨by omega, by simp; omega, ?_⟩
      rw [show p.1 - base = (p.1 - (base + 1)) + 1 from by omega, List.getD_cons_succ]
      exact hval

lemma origColNames_getD (recs : List String) (j : Nat)
    (h : j < (declaredCols recs).length) :
    (origColNames recs).getD j "" = ((declaredCols recs).getD j []).headD "" := by
  rw [origColNames, List.getD_eq_getElem _ _ (by simpa using h), List.getElem_map,
    ← List.getD_eq_getElem _ _ h]

/-- C6.  After a non-auto schema parse succeeds: the original declared
columns come first and their count is colOrigs; they are followed by exactly
the synthetic null-flag columns, in declaration order of their originating
columns, each named from its originating column with the _ISNULL suffix;
colNVChk holds the positions of the originating columns; and a position has
a companion if and only if its declared column has a type token, may be null
(no NOT NULL) and its resolved type token is integral. -/
theorem schema_null_flag_augmentation :
    ∀ (recs : List String) (st : SchemaState),
      get_schema recs false = Except.ok st →
      st.colOrigs = (origColNames recs).length ∧
      st.colNames = origColNames recs ++ (nullCompanions recs).map Prod.snd ∧
      st.colNVChk = (nullCompanions recs).map Prod.fst ∧
      (∀ p ∈ nullCompanions recs,
        p.1 < (origColNames recs).length ∧
        p.2 = (origColNames recs).getD p.1 "" ++ "_ISNULL") ∧
      (∀ j, j ∈ st.colNVChk ↔
        j < st.colOrigs ∧ colMakesNull ((declaredCols recs).getD j []) = true) := by
  intro recs st h
  rw [get_schema] at h
  cases hsl : schLines false recs ({}, []) with
  | error e => rw [hsl] at h; cases h
  | ok acc =>
    rw [hsl] at h
    dsimp only at h
    obtain ⟨st0, cn0⟩ := acc
    obtain ⟨hn0, hv0, hc0⟩ := schLines_effect recs {} [] st0 cn0 hsl
    have hn0' : st0.colNames = origColNames recs := by
      rw [hn0]
      rfl
    have hv0' : st0.colNVChk = [] := by
      rw [hv0]
    have hc0' : cn0 = nullCompanions recs := by
      rw [hc0, nullCompanions]
      rfl
    have hst := Except.ok.inj h
    obtain ⟨f1, f2, f3⟩ := foldl_addcols cn0
      { st0 with colOrigs := st0.colNames.length, cNameMaw := st0.cNameMax }
    rw [hst] at f1 f2 f3
    have horigs : st.colOrigs = (origColNames recs).length := by
      rw [f3]
      dsimp only
      rw [hn0']
    have hnames : st.colNames = origColNames recs ++ (nullCompanions recs).map Prod.snd := by
      rw [f1]
      dsimp only
      rw [hn0', hc0']
    have hchk : st.colNVChk = (nullCompanions recs).map Prod.fst := by
      rw [f2]
      dsimp only
      rw [hv0', hc0']
      rfl
    have hlen : (origColNames recs).length = (declaredCols recs).length := by
      rw [origColNames, List.length_map]
    refine ⟨horigs, hnames, hchk, ?_, ?_⟩
    · intro p hp
      obtain ⟨hb, hlt, hval⟩ := nullCompanionsAux_entry (declaredCols recs) 0 p hp
      rw [Nat.sub_zero] at hlt hval
      refine ⟨by omega, ?_⟩
      rw [hval, origColNames_getD recs p.1 hlt]
    · intro j
      rw [hchk, horigs, nullCompanions, hlen]
      rw [nullCompanionsAux_fst_mem (declaredCols recs) 0 j]
      constructor
      · rintro ⟨k, hk, hjk, hcm⟩
        subst hjk
        rw [Nat.zero_add]
        exact ⟨hk, hcm⟩
      · rintro ⟨hj, hcm⟩
        exact ⟨j, hj, by omega, hcm⟩

/-- The schema lines of the C6 witness scenario. -/
def recsC6 : List String := ["id int NOT NULL", "amount decimal(5,2)", "flag int"]

/-- The state produced by parsing the witness scenario schema. -/
def stC6 : SchemaState :=
  { colNames := ["id", "amount", "flag", "flag_ISNULL"], colNVChk := [2],
    colTypes := [("id", .int32), ("amount", .float32), ("flag", .int32),
                 ("flag_ISNULL", .bool_)],
    colOrigs := 3, cNameMaw := 6, cNameMax := 11,
    colFPFmt := [("amount", ".2f")], colNotNull := ["id"],
    colSpecs := [("id", "int", "int32"), ("amount", "decimal(5,2)", "float32"),
                 ("flag", "int", "int32")] }

/-- C6 witness: the spec scenario schema — id int NOT NULL, amount
decimal(5,2), flag int — has exactly one companion, for the nullable
integral column flag at position 2. -/
theorem schema_null_flag_augmentation_witness :
    get_schema recsC6 false = Except.ok stC6 ∧
    stC6.colOrigs = (origColNames recsC6).length ∧
    stC6.colNames = origColNames recsC6 ++ (nullCompanions recsC6).map Prod.snd ∧
    stC6.colNVChk = (nullCompanions recsC6).map Prod.fst ∧
    (2 ∈ stC6.colNVChk ↔
      2 < stC6.colOrigs ∧ colMakesNull ((declaredCols recsC6).getD 2 []) = true) ∧
    (0 ∈ stC6.colNVChk ↔
      0 < stC6.colOrigs ∧ colMakesNull ((declaredCols recsC6).getD 0 []) = true) := by
  have h := schema_null_flag_augmentation recsC6 stC6 (by decide)
  exact ⟨by decide, h.1, h.2.1, h.2.2.1, h.2.2.2.2 2, h.2.2.2.2 0⟩
